import Mathlib

/-!
Verification of the OpenLab cell-simulation stepper, simulation loop,
streaming buffer and pipeline state machine.

The development shallowly embeds `frontend/src/stores/cellforgeStore.ts`,
`frontend/src/utils/simulationBuffer.js`, `frontend/src/store.ts` and
`frontend/src/hooks/usePipeline.ts`.  JavaScript `number`s are modelled as
real numbers (`ℝ`); molecule counts, which are always integer valued in the
code (initialised to integers, modified only by Poisson samples, `Math.floor`
and `Math.max`), are modelled as integers (`ℤ`).  The implicit global
`Math.random()` stream is made explicit as an infinite stream of reals that
every sampling function consumes from the front and threads onward.
-/

noncomputable section

namespace OpenLab

/-- The `Math.random()` stream, made explicit: draw `i` is `r i`.
Consuming one draw shifts the stream. -/
def Rng : Type := ℕ → ℝ

/-- The stream after one draw has been consumed. -/
def shift (r : Rng) : Rng := fun i => r (i + 1)

/-- The all-zeros draw stream (used for concrete evaluations). -/
def zeroS : Rng := fun _ => 0

/-- Function `mm` from cellforgeStore.ts (lines 33-36): Michaelis-Menten rate,
`0` for non-positive substrate, else `vmax * s / (km + s)`. -/
def mm (s vmax km : ℝ) : ℝ := if s ≤ 0 then 0 else vmax * s / (km + s)

/-- JavaScript `Math.round`: rounds half toward positive infinity,
which is `⌊x + 1/2⌋`. -/
def jsRound (x : ℝ) : ℤ := ⌊x + 1/2⌋

/-- The `do { k++; p *= Math.random(); } while (p > L)` loop of `poisson`
(cellforgeStore.ts lines 42-43).  The body always executes at least once
(do-while).  The JS loop keeps drawing until the running product drops to
`L`; since on an adversarial draw stream that may never happen, the
embedding bounds the number of *additional* iterations by `fuel` (every
claim below is either universally quantified over `fuel` or evaluated at a
`fuel` large enough for the loop to exit by its own test). -/
def poissonLoop (L : ℝ) : ℕ → ℝ → ℕ → Rng → ℕ × Rng
  | 0, _p, k, r => (k + 1, shift r)
  | fuel + 1, p, k, r =>
    if p * r 0 ≤ L then (k + 1, shift r)
    else poissonLoop L fuel (p * r 0) (k + 1) (shift r)

/-- Function `poisson` from cellforgeStore.ts (lines 39-45): returns `0` for
`lam ≤ 0`; for `lam > 30` a rounded-and-floored normal approximation using
one draw; otherwise exact inversion sampling via `poissonLoop`, returning
`k - 1`. -/
def poisson (fuel : ℕ) (lam : ℝ) (r : Rng) : ℤ × Rng :=
  if lam ≤ 0 then (0, r)
  else if 30 < lam then
    (max 0 (jsRound (lam + Real.sqrt lam * (r 0 * 2 - 1))), shift r)
  else
    ((((poissonLoop (Real.exp (-lam)) fuel 1 0 r).1 : ℤ) - 1),
      (poissonLoop (Real.exp (-lam)) fuel 1 0 r).2)

/-! ## Data model

`SimulationState` from types/cellforge.ts.  `metaboliteConcentrations` is a
`Record<string, number>` whose six keys (`glucose`, `atp`, `adp`, `nadh`,
`nad`, `pyruvate`) are exactly the ones `initState` creates and
`stepSimulation` reads and writes; it is modelled as a total record over
those six keys, which makes the `?? default` fallbacks in the code dead
paths.  `mrnaCounts`/`proteinCounts` are `Record<string, number>` maps
modelled as total functions `String → ℤ` (absent keys read as their code
default only inside `stepSimulation`, which is likewise a dead path since
every state supplies all keys). -/

/-- The six metabolite pools of `initState` (cellforgeStore.ts line 20). -/
structure Met where
  glucose : ℝ
  atp : ℝ
  adp : ℝ
  nadh : ℝ
  nad : ℝ
  pyruvate : ℝ

/-- Gene-indexed copy numbers. -/
def Counts : Type := String → ℤ

structure SimulationState where
  time : ℝ
  met : Met
  mrnaCounts : Counts
  proteinCounts : Counts
  fluxGlucoseUptake : ℝ
  fluxAtpSynthase : ℝ
  growthRate : ℝ
  cellMass : ℝ
  replicationProgress : ℝ

/-- List `DEMO_GENES` (cellforgeStore.ts lines 5-8). -/
def DEMO_GENES : List String :=
  ["dnaA", "rpoB", "rpsA", "gyrA", "ftsZ", "pgi", "pfkA", "gapA",
   "eno", "pykF", "aceE", "gltA", "icd", "sucA", "sdhA", "atpA"]

/-- The genes after `dnaA` in iteration order (for unrolling the first
loop iteration of a concrete run). -/
def DTAIL : List String :=
  ["rpoB", "rpsA", "gyrA", "ftsZ", "pgi", "pfkA", "gapA",
   "eno", "pykF", "aceE", "gltA", "icd", "sucA", "sdhA", "atpA"]

/-! ## The stepper (`stepSimulation`, cellforgeStore.ts lines 48-129) -/

/-- Metabolism section (lines 53-64).  Every field is read at its value
before this section and written exactly once, clamped at `0` by
`Math.max`. -/
def stepMet (met : Met) (cellMass dt : ℝ) : Met :=
  let glcUptake := mm met.glucose 10 0.05
  let glcConsumed := glcUptake * dt / 3600
  let atpProduced := glcConsumed * 18
  let atpMaint := 0.001 * (cellMass / 1000) * dt
  { glucose := max 0 (met.glucose - glcConsumed)
    atp := max 0 (met.atp + atpProduced - atpMaint)
    adp := max 0 (met.adp - atpProduced + atpMaint)
    nadh := max 0 (met.nadh + glcConsumed * 4)
    nad := max 0 (met.nad - glcConsumed * 4)
    pyruvate := max 0 (met.pyruvate + glcConsumed * 0.2) }

/-- Transcription loop (lines 70-73): every gene in the list receives a
Poisson increment with rate `0.008 * dt`, with no knockout guard. -/
def transcribe (fuel : ℕ) (dt : ℝ) : List String → Counts → Rng → Counts × Rng
  | [], m, r => (m, r)
  | g :: gs, m, r =>
    let nr := poisson fuel (0.008 * dt) r
    transcribe fuel dt gs (fun x => if x = g then m g + nr.1 else m x) nr.2

/-- Translation loop (lines 76-79): Poisson increment to protein with rate
`0.004 * mrna[g] * dt`. -/
def translate (fuel : ℕ) (dt : ℝ) : List String → Counts → Counts → Rng → Counts × Rng
  | [], _m, p, r => (p, r)
  | g :: gs, m, p, r =>
    let nr := poisson fuel (0.004 * (m g : ℝ) * dt) r
    translate fuel dt gs m (fun x => if x = g then p g + nr.1 else p x) nr.2

/-- Degradation loop (lines 82-87): per gene, Poisson decrements to mRNA
then protein, clamped at `0` by `Math.max`. -/
def degrade (fuel : ℕ) (dt : ℝ) : List String → Counts → Counts → Rng → Counts × Counts × Rng
  | [], m, p, r => (m, p, r)
  | g :: gs, m, p, r =>
    let mr := poisson fuel ((m g : ℝ) * 0.0023 * dt) r
    let m' : Counts := fun x => if x = g then max 0 (m g - mr.1) else m x
    let pr := poisson fuel ((p g : ℝ) * 0.000019 * dt) mr.2
    let p' : Counts := fun x => if x = g then max 0 (p g - pr.1) else p x
    degrade fuel dt gs m' p' pr.2

/-- Replication progress (lines 90-93): advances only while the updated
mass exceeds `1800`, capped at `1`. -/
def replStep (repl cellMass dt : ℝ) : ℝ :=
  if 1800 < cellMass then min 1 (repl + dt / 2300) else repl

/-- Division halving (lines 98-101): `Math.max(1, Math.floor(c / 2))`
applied to every gene of the list; `Math.floor` of the real half of an
integer is integer floor-division. -/
def halveCounts : List String → Counts → Counts
  | [], c => c
  | g :: gs, c => halveCounts gs (fun x => if x = g then max 1 ((c g).fdiv 2) else c x)

/-- Growth-rate line 66: `mm(met.atp, 0.0005, 1.0)` on the post-metabolism
ATP pool. -/
def growthRateOf (s : SimulationState) (dt : ℝ) : ℝ :=
  mm (stepMet s.met s.cellMass dt).atp 0.0005 1

/-- Mass update line 67: `cellMass + growthRate * cellMass * dt`. -/
def grownMass (s : SimulationState) (dt : ℝ) : ℝ :=
  s.cellMass + growthRateOf s dt * s.cellMass * dt

/-- The count pools after this tick's transcription, translation and
degradation loops, with the RNG stream they leave behind
(lines 70-87 in source order). -/
def postDegradation (fuel : ℕ) (s : SimulationState) (dt : ℝ) (r : Rng) :
    Counts × Counts × Rng :=
  let tr := transcribe fuel dt DEMO_GENES s.mrnaCounts r
  let tl := translate fuel dt DEMO_GENES tr.1 s.proteinCounts tr.2
  degrade fuel dt DEMO_GENES tr.1 tl.1 tl.2

/-- Function `stepSimulation` (lines 48-129), threading the explicit RNG stream in
source order: transcription draws, then translation draws, then per-gene
mRNA/protein degradation draws.  The division branch (lines 96-113)
returns early, skipping the glucose replenishment (lines 115-116). -/
def stepSimulation (fuel : ℕ) (s : SimulationState) (dt : ℝ) (r : Rng) :
    SimulationState × Rng :=
  let met := stepMet s.met s.cellMass dt
  let glcUptake := mm s.met.glucose 10 0.05
  let atpProduced := glcUptake * dt / 3600 * 18
  let growthRate := growthRateOf s dt
  let cellMass := grownMass s dt
  let dg := postDegradation fuel s dt r
  let repl := replStep s.replicationProgress cellMass dt
  if 1 ≤ repl ∧ 1800 < cellMass then
    ({ time := s.time + dt
       met := met
       mrnaCounts := halveCounts DEMO_GENES dg.1
       proteinCounts := halveCounts DEMO_GENES dg.2.1
       fluxGlucoseUptake := glcUptake
       fluxAtpSynthase := atpProduced / dt * 3600
       growthRate := growthRate
       cellMass := cellMass / 2
       replicationProgress := 0 }, dg.2.2)
  else
    ({ time := s.time + dt
       met := { met with glucose := max 0 (met.glucose + mm 20 0.01 0.1 * dt) }
       mrnaCounts := dg.1
       proteinCounts := dg.2.1
       fluxGlucoseUptake := glcUptake
       fluxAtpSynthase := atpProduced / dt * 3600
       growthRate := growthRate
       cellMass := cellMass
       replicationProgress := repl }, dg.2.2)

/-- A finite sequence of `stepSimulation` calls, one `dt` per call,
threading the RNG stream. -/
def runSteps (fuel : ℕ) : List ℝ → SimulationState → Rng → SimulationState × Rng
  | [], s, r => (s, r)
  | dt :: dts, s, r =>
    let sr := stepSimulation fuel s dt r
    runSteps fuel dts sr.1 sr.2

/-- The list of states visited by a run (after each step, in order). -/
def trajectory (fuel : ℕ) : List ℝ → SimulationState → Rng → List SimulationState
  | [], _s, _r => []
  | dt :: dts, s, r =>
    let sr := stepSimulation fuel s dt r
    sr.1 :: trajectory fuel dts sr.1 sr.2

/-! ## The simulation loop store (`useCellForgeStore`, cellforgeStore.ts 131-229)

The zustand store holds `state`, `history`, `isRunning`, `speed` and
`knockedOut`; its actions are embedded as pure functions on a `LoopStore`
record (threading the RNG stream where an action samples).  The `play`
timer callback (lines 161-178) and `stepOnce` (lines 186-199) execute the
identical body; the wall-clock `setInterval` cadence itself is not part of
the embedded semantics. -/

/-- Snapshot shape `HistorySnapshot` as built by the store (cellforgeStore.ts 169-176). -/
structure HistorySnapshot where
  time : ℝ
  met : Met
  mrnaCounts : Counts
  proteinCounts : Counts
  growthRate : ℝ
  cellMass : ℝ

structure LoopStore where
  state : SimulationState
  history : List HistorySnapshot
  isRunning : Bool
  speed : ℝ
  knockedOut : Finset String

def mkSnap (s : SimulationState) : HistorySnapshot :=
  { time := s.time
    met := s.met
    mrnaCounts := s.mrnaCounts
    proteinCounts := s.proteinCounts
    growthRate := s.growthRate
    cellMass := s.cellMass }

/-- Caller-side knockout enforcement (`for (const g of knockedOut)
next.mrnaCounts[g] = 0`, lines 166-168 and 189). -/
def applyKnockouts (ko : Finset String) (m : Counts) : Counts :=
  fun x => if x ∈ ko then 0 else m x

/-- The state produced by one loop tick: a raw `stepSimulation` with
`dt = speed`, then caller-side zeroing of knocked-out genes. -/
def stepOnceNext (fuel : ℕ) (st : LoopStore) (r : Rng) : SimulationState × Rng :=
  let sr := stepSimulation fuel st.state st.speed r
  ({ sr.1 with mrnaCounts := applyKnockouts st.knockedOut sr.1.mrnaCounts }, sr.2)

/-- Action `stepOnce` (lines 186-199).  Note: the code contains no check of
`isRunning`; the body runs unconditionally.  `history.slice(-200)` keeps
the most recent 200 snapshots before appending the new one. -/
def stepOnce (fuel : ℕ) (st : LoopStore) (r : Rng) : LoopStore × Rng :=
  let nr := stepOnceNext fuel st r
  ({ st with
      state := nr.1
      history := st.history.drop (st.history.length - 200) ++ [mkSnap nr.1] }, nr.2)

/-- Iterates `n` consecutive loop ticks (each tick is the shared `play`/`stepOnce`
body). -/
def iterTicks (fuel : ℕ) : ℕ → LoopStore → Rng → LoopStore × Rng
  | 0, st, r => (st, r)
  | n + 1, st, r =>
    let sr := stepOnce fuel st r
    iterTicks fuel n sr.1 sr.2

/-- Action `knockout` (lines 208-214): adds the gene to the knockout set and
zeroes its current mRNA immediately. -/
def knockoutAct (g : String) (st : LoopStore) : LoopStore :=
  { st with
      knockedOut := insert g st.knockedOut
      state := { st.state with
                  mrnaCounts := fun x => if x = g then 0 else st.state.mrnaCounts x } }

/-- Action `restoreGene` (lines 216-220): removes the gene from the knockout set
only. -/
def restoreGeneAct (g : String) (st : LoopStore) : LoopStore :=
  { st with knockedOut := st.knockedOut.erase g }

/-- Per-gene draws of `initState` (lines 13-16): `5 + ⌊u·15⌋` mRNA and
`50 + ⌊u·150⌋` protein copies, two draws per gene in list order.  The
fresh `Record`s start empty; the base maps stand for their absent keys. -/
def initCounts : List String → Counts → Counts → Rng → Counts × Counts × Rng
  | [], m, p, r => (m, p, r)
  | g :: gs, m, p, r =>
    let m' : Counts := fun x => if x = g then 5 + ⌊r 0 * 15⌋ else m x
    let p' : Counts := fun x => if x = g then 50 + ⌊shift r 0 * 150⌋ else p x
    initCounts gs m' p' (shift (shift r))

/-- Function `initState` (lines 10-30). -/
def initState (r : Rng) : SimulationState × Rng :=
  let cr := initCounts DEMO_GENES (fun _ => 0) (fun _ => 0) r
  ({ time := 0
     met := { glucose := 10, atp := 5, adp := 1, nadh := 2, nad := 5, pyruvate := 0.5 }
     mrnaCounts := cr.1
     proteinCounts := cr.2.1
     fluxGlucoseUptake := 0
     fluxAtpSynthase := 0
     growthRate := 0
     cellMass := 1000
     replicationProgress := 0 }, cr.2.2)

/-- Action `reset` (lines 201-204): fresh `initState`, empty history, not
running, empty knockout set; `speed` is not reset. -/
def resetAct (st : LoopStore) (r : Rng) : LoopStore × Rng :=
  let ir := initState r
  ({ state := ir.1
     history := []
     isRunning := false
     speed := st.speed
     knockedOut := ∅ }, ir.2)

/-! ## Streaming buffer (`simulationBuffer.js`) -/

/-- Class `SimulationBuffer`: an append-only list plus a version counter.  The
getters `version`, `data` and `length` are projections; `push` and
`clear` are the only state transitions. -/
structure SimulationBuffer (α : Type) where
  data : List α
  version : ℕ

def SimulationBuffer.push {α : Type} (b : SimulationBuffer α) (snapshot : α) :
    SimulationBuffer α :=
  { data := b.data ++ [snapshot], version := b.version + 1 }

def SimulationBuffer.clear {α : Type} (_b : SimulationBuffer α) :
    SimulationBuffer α :=
  { data := [], version := 0 }

/-- Reading `data` as an operation on the buffer: it returns the list and
the buffer itself, untouched (the getter has no setter side). -/
def SimulationBuffer.readData {α : Type} (b : SimulationBuffer α) :
    List α × SimulationBuffer α :=
  (b.data, b)

/-- Reading `version` as an operation on the buffer. -/
def SimulationBuffer.readVersion {α : Type} (b : SimulationBuffer α) :
    ℕ × SimulationBuffer α :=
  (b.version, b)

/-! ## Pipeline state machine (`store.ts` `handleEvent`, `usePipeline.ts`)

Event payloads (`data: Record<string, unknown> | null`) are arbitrary
JSON; the embedding is polymorphic in the payload type.  `handleEvent`
(store.ts 184-192) writes `stages[event.stage]` exactly once,
unconditionally overwriting whatever record was there; the remainder of
`handleEvent` routes completed/running payloads into other, per-result
store fields and never touches `stages` again. -/

inductive StageStatus where
  | pending
  | running
  | completed
  | failed
deriving DecidableEq

structure PipelineEvent (Data : Type) where
  stage : String
  status : StageStatus
  data : Option Data
  error : Option String
  progress : ℝ

/-- Per-stage record kept in `stages` (store.ts 23-27). -/
structure StageRec (Data : Type) where
  status : StageStatus
  data : Option Data
  error : Option String

/-- The `stages` map: `Record<string, StageState>`. -/
def Stages (Data : Type) : Type := String → Option (StageRec Data)

/-- The `stages` update of `handleEvent` (store.ts 186-192):
`newStages[event.stage] = { status, data, error }`, all other stages kept. -/
def handleEventStages {Data : Type} (stages : Stages Data) (e : PipelineEvent Data) :
    Stages Data :=
  fun k => if k = e.stage then some ⟨e.status, e.data, e.error⟩ else stages k

/-- The WebSocket `onmessage` handler (usePipeline.ts 28-35): parse the
raw payload; on success feed the event to `handleEvent`, on failure log
the error and change nothing.  `JSON.parse`-plus-validation is abstracted
as a `parse` function; the `try`/`catch` is the `Option` match.  The
second component is the list of messages logged out-of-band. -/
def onMessage {Data : Type} (parse : String → Option (PipelineEvent Data))
    (stages : Stages Data) (raw : String) : Stages Data × List String :=
  match parse raw with
  | some e => (handleEventStages stages e, [])
  | none => (stages, ["Failed to parse pipeline event: " ++ raw])

/-! ## State invariants and concrete fixtures -/

/-- All six metabolite concentrations are non-negative. -/
def ValidMet (m : Met) : Prop :=
  0 ≤ m.glucose ∧ 0 ≤ m.atp ∧ 0 ≤ m.adp ∧ 0 ≤ m.nadh ∧ 0 ≤ m.nad ∧ 0 ≤ m.pyruvate

/-- The invariant of the spec: metabolites `≥ 0`, all counts `≥ 0`,
`cellMass > 0`. -/
def ValidState (s : SimulationState) : Prop :=
  ValidMet s.met ∧ (∀ g, 0 ≤ s.mrnaCounts g) ∧ (∀ g, 0 ≤ s.proteinCounts g) ∧
    0 < s.cellMass

/-- Everywhere-zero count map. -/
def zCounts : Counts := fun _ => 0

/-- A concrete state with the `initState` metabolite pools and uniform
counts. -/
def c1s : SimulationState :=
  { time := 0
    met := { glucose := 10, atp := 5, adp := 1, nadh := 2, nad := 5, pyruvate := 0.5 }
    mrnaCounts := fun _ => 5
    proteinCounts := fun _ => 50
    fluxGlucoseUptake := 0
    fluxAtpSynthase := 0
    growthRate := 0
    cellMass := 1000
    replicationProgress := 0 }

/-- A state at the division point: `replicationProgress = 1`,
`cellMass = 2000 > 1800`, with ATP available so the growth term is
non-zero. -/
def c3s : SimulationState :=
  { time := 0
    met := { glucose := 0, atp := 5, adp := 0, nadh := 0, nad := 0, pyruvate := 0 }
    mrnaCounts := zCounts
    proteinCounts := zCounts
    fluxGlucoseUptake := 0
    fluxAtpSynthase := 0
    growthRate := 0
    cellMass := 2000
    replicationProgress := 1 }

/-- An exhausted state (no glucose, no ATP, all counts zero). -/
def zState : SimulationState :=
  { time := 0
    met := { glucose := 0, atp := 0, adp := 0, nadh := 0, nad := 0, pyruvate := 0 }
    mrnaCounts := zCounts
    proteinCounts := zCounts
    fluxGlucoseUptake := 0
    fluxAtpSynthase := 0
    growthRate := 0
    cellMass := 1000
    replicationProgress := 0 }

/-- Loop store in which `dnaA` has been knocked out and its mRNA zeroed
(the state `knockout("dnaA")` produces from `zState`). -/
def kst : LoopStore :=
  { state := zState
    history := []
    isRunning := false
    speed := 1
    knockedOut := {"dnaA"} }

/-- A running loop store (the timer is active). -/
def c6st : LoopStore :=
  { state := c1s
    history := []
    isRunning := true
    speed := 1
    knockedOut := ∅ }

/-- The `initState` metabolite pools. -/
def c5met : Met :=
  { glucose := 10, atp := 5, adp := 1, nadh := 2, nad := 5, pyruvate := 0.5 }

/-- The C5 scenario state: `glucose = 10`, `atp = 5`, fresh cell, with
arbitrary count pools. -/
def c5state (mr pr : Counts) : SimulationState :=
  { time := 0
    met := c5met
    mrnaCounts := mr
    proteinCounts := pr
    fluxGlucoseUptake := 0
    fluxAtpSynthase := 0
    growthRate := 0
    cellMass := 1000
    replicationProgress := 0 }

/-- A draw stream whose first draw is `0.999` and all later draws `0`:
the first small-lambda Poisson call returns `1`, every later call `0`. -/
def ceRng : Rng := fun i => if i = 0 then 999/1000 else 0

/-- Count map holding one `dnaA` transcript and nothing else. -/
def ceM1 : Counts := fun x => if x = "dnaA" then 1 else 0

/-- A stages map in which stage `A` has completed. -/
def stages0 : Stages Unit :=
  fun k => if k = "A" then some ⟨StageStatus.completed, none, none⟩ else none

/-- A `running` event for stage `A`, received after `A` completed. -/
def ev9 : PipelineEvent Unit :=
  { stage := "A", status := StageStatus.running, data := none, error := none,
    progress := 0 }

/-! ## Basic lemmas about the kinetics library -/

theorem shift_zeroS : shift zeroS = zeroS := rfl

theorem mm_nonneg {s vmax km : ℝ} (hv : 0 ≤ vmax) (hk : 0 ≤ km) :
    0 ≤ mm s vmax km := by
  unfold mm
  split
  · exact le_refl 0
  · rename_i h
    push_neg at h
    have hden : 0 < km + s := by linarith
    positivity

theorem mm_le_vmax {s vmax km : ℝ} (hv : 0 ≤ vmax) (hk : 0 ≤ km) :
    mm s vmax km ≤ vmax := by
  unfold mm
  split
  · exact hv
  · rename_i h
    push_neg at h
    have hden : 0 < km + s := by linarith
    rw [div_le_iff₀ hden]
    nlinarith

theorem poissonLoop_fst_ge (L : ℝ) (fuel : ℕ) :
    ∀ (p : ℝ) (k : ℕ) (r : Rng), k + 1 ≤ (poissonLoop L fuel p k r).1 := by
  induction fuel with
  | zero => intro p k r; simp [poissonLoop]
  | succ n ih =>
    intro p k r
    unfold poissonLoop
    split
    · simp
    · exact le_trans (Nat.le_succ _) (ih _ _ _)

theorem poisson_nonneg (fuel : ℕ) (lam : ℝ) (r : Rng) :
    0 ≤ (poisson fuel lam r).1 := by
  unfold poisson
  split
  · simp
  · split
    · simp
    · have h := poissonLoop_fst_ge (Real.exp (-lam)) fuel 1 0 r
      simp only []
      have h1 : (1 : ℤ) ≤ ((poissonLoop (Real.exp (-lam)) fuel 1 0 r).1 : ℤ) := by
        exact_mod_cast h
      omega

theorem poisson_of_nonpos (fuel : ℕ) {lam : ℝ} (h : lam ≤ 0) (r : Rng) :
    poisson fuel lam r = (0, r) := by
  unfold poisson
  rw [if_pos h]

/-- On the all-zeros stream, any small-lambda Poisson call exits its loop
after the first draw (the running product is `0 ≤ exp (-lam)`) and returns
`0`, leaving the stream all-zeros again. -/
theorem poisson_zeroS (fuel : ℕ) {lam : ℝ} (h : lam ≤ 30) :
    poisson fuel lam zeroS = (0, zeroS) := by
  rcases le_or_lt lam 0 with h0 | h0
  · exact poisson_of_nonpos fuel h0 zeroS
  · unfold poisson
    rw [if_neg (not_le.mpr h0), if_neg (not_lt.mpr h)]
    have hloop : poissonLoop (Real.exp (-lam)) fuel 1 0 zeroS = (1, zeroS) := by
      cases fuel with
      | zero => simp [poissonLoop, shift_zeroS]
      | succ n =>
        have hz : (1 : ℝ) * zeroS 0 ≤ Real.exp (-lam) := by
          show (1 : ℝ) * 0 ≤ Real.exp (-lam)
          rw [mul_zero]
          exact (Real.exp_pos _).le
        unfold poissonLoop
        rw [if_pos hz, shift_zeroS]
    rw [hloop]
    simp

/-- Both branches of `stepSimulation` set `time := s.time + dt`. -/
theorem stepSimulation_time (fuel : ℕ) (s : SimulationState) (dt : ℝ) (r : Rng) :
    (stepSimulation fuel s dt r).1.time = s.time + dt := by
  unfold stepSimulation
  dsimp only
  split <;> rfl

/-! ## Claim theorems -/

/-- C2: for every initial state, `dt` sequence and fuel bound, two runs
consuming an identical RNG stream produce identical trajectories — the
stepper is a pure function of its arguments and the explicit stream, and
reads nothing else. -/
theorem stepper_deterministic (fuel : ℕ) (s0 : SimulationState) (dts : List ℝ)
    (r1 r2 : Rng) (h : r1 = r2) :
    trajectory fuel dts s0 r1 = trajectory fuel dts s0 r2 ∧
      runSteps fuel dts s0 r1 = runSteps fuel dts s0 r2 := by
  rw [h]
  exact ⟨rfl, rfl⟩

theorem stepper_deterministic_witness :
    trajectory 1 [1] c1s zeroS = trajectory 1 [1] c1s zeroS ∧
      runSteps 1 [1] c1s zeroS = runSteps 1 [1] c1s zeroS :=
  stepper_deterministic 1 c1s [1] zeroS zeroS rfl

/-- C6 (amended): `stepOnce` contains no `isRunning` guard.  Even while
the loop is running it is not a no-op: it advances `state.time` by
`speed` and appends one snapshot to the (trimmed) history. -/
theorem stepOnce_while_running (fuel : ℕ) (st : LoopStore) (r : Rng)
    (_h : st.isRunning = true) :
    (stepOnce fuel st r).1.state.time = st.state.time + st.speed ∧
      (stepOnce fuel st r).1.history
        = st.history.drop (st.history.length - 200)
            ++ [mkSnap (stepOnceNext fuel st r).1] := by
  constructor
  · show (stepOnceNext fuel st r).1.time = st.state.time + st.speed
    unfold stepOnceNext
    show (stepSimulation fuel st.state st.speed r).1.time = st.state.time + st.speed
    exact stepSimulation_time fuel st.state st.speed r
  · rfl

theorem stepOnce_while_running_witness :
    c6st.isRunning = true ∧
      (stepOnce 1 c6st zeroS).1.state.time = c6st.state.time + c6st.speed ∧
      (stepOnce 1 c6st zeroS).1.history
        = c6st.history.drop (c6st.history.length - 200)
            ++ [mkSnap (stepOnceNext 1 c6st zeroS).1] :=
  ⟨rfl, stepOnce_while_running 1 c6st zeroS rfl⟩

/-- C6 counterexample: on a running store, `stepOnce` is not rejected as a
no-op — the state changes (`time` advances from `0` to `1`). -/
theorem stepOnce_running_not_noop :
    c6st.isRunning = true ∧
      (stepOnce 1 c6st zeroS).1.state.time ≠ c6st.state.time := by
  refine ⟨rfl, ?_⟩
  have h1 : (stepOnce 1 c6st zeroS).1.state.time = c6st.state.time + c6st.speed := by
    show (stepOnceNext 1 c6st zeroS).1.time = c6st.state.time + c6st.speed
    exact stepSimulation_time 1 c6st.state c6st.speed zeroS
  rw [h1]
  show c1s.time + (1 : ℝ) ≠ c1s.time
  norm_num [c1s]

/-- C7: `push` increments `version` by exactly `1` and appends exactly one
snapshot, `clear` resets `version` to `0` and empties `data`, and the
read operations return the buffer unchanged. -/
theorem buffer_versioning {α : Type} (b : SimulationBuffer α) (s : α) :
    (b.push s).version = b.version + 1 ∧
      (b.push s).data = b.data ++ [s] ∧
      b.clear.version = 0 ∧
      b.clear.data = ([] : List α) ∧
      b.readData = (b.data, b) ∧
      b.readVersion = (b.version, b) :=
  ⟨rfl, rfl, rfl, rfl, rfl, rfl⟩

/-- C8: a message whose payload fails to parse is dropped: the handler
returns the stage map unchanged (every per-stage record intact) and logs
the failure out-of-band instead of crashing. -/
theorem malformed_event_dropped {Data : Type}
    (parse : String → Option (PipelineEvent Data)) (stages : Stages Data)
    (raw : String) (h : parse raw = none) :
    onMessage parse stages raw
        = (stages, ["Failed to parse pipeline event: " ++ raw]) ∧
      ∀ k, (onMessage parse stages raw).1 k = stages k := by
  unfold onMessage
  rw [h]
  exact ⟨rfl, fun _ => rfl⟩

theorem malformed_event_dropped_witness :
    onMessage (fun _ => (none : Option (PipelineEvent Unit))) stages0 "oops"
        = (stages0, ["Failed to parse pipeline event: " ++ "oops"]) ∧
      ∀ k, (onMessage (fun _ => (none : Option (PipelineEvent Unit))) stages0
          "oops").1 k = stages0 k :=
  malformed_event_dropped (fun _ => none) stages0 "oops" rfl

/-- C9 counterexample: stage `A` has `completed`, yet a later `running`
event for `A` overwrites its status — `completed` is not terminal in the
code. -/
theorem completed_stage_overwritten :
    stages0 "A" = some ⟨StageStatus.completed, none, none⟩ ∧
      handleEventStages stages0 ev9 "A"
        = some ⟨StageStatus.running, none, none⟩ ∧
      StageStatus.running ≠ StageStatus.completed :=
  ⟨rfl, rfl, by decide⟩

/-- C9 (amended): `handleEvent` overwrites the addressed stage record with
the incoming event unconditionally (last-write-wins) and leaves every
other stage unchanged; `completed`/`failed` are not enforced as terminal. -/
theorem handleEvent_last_write_wins {Data : Type} (stages : Stages Data)
    (e : PipelineEvent Data) :
    handleEventStages stages e e.stage = some ⟨e.status, e.data, e.error⟩ ∧
      ∀ k, k ≠ e.stage → handleEventStages stages e k = stages k := by
  constructor
  · unfold handleEventStages
    rw [if_pos rfl]
  · intro k hk
    unfold handleEventStages
    rw [if_neg hk]

theorem handleEvent_last_write_wins_witness :
    handleEventStages stages0 ev9 ev9.stage
        = some ⟨ev9.status, ev9.data, ev9.error⟩ ∧
      handleEventStages stages0 ev9 "B" = stages0 "B" :=
  ⟨(handleEvent_last_write_wins stages0 ev9).1,
    (handleEvent_last_write_wins stages0 ev9).2 "B" (by decide)⟩

/-- C10: after `reset`, the knockout set is empty and the loop is not
running; no gene is knocked out any more, so the caller-side zeroing in a
subsequent tick does nothing and transcription output reaches the store
unmasked. -/
theorem reset_clears_knockouts (st : LoopStore) (r : Rng) :
    (resetAct st r).1.knockedOut = ∅ ∧
      (resetAct st r).1.isRunning = false ∧
      (∀ g, g ∉ (resetAct st r).1.knockedOut) ∧
      ∀ fuel r',
        (stepOnce fuel (resetAct st r).1 r').1.state.mrnaCounts
          = (stepSimulation fuel (resetAct st r).1.state
              (resetAct st r).1.speed r').1.mrnaCounts := by
  refine ⟨rfl, rfl, ?_, ?_⟩
  · intro g
    show g ∉ (∅ : Finset String)
    exact Finset.not_mem_empty g
  · intro fuel r'
    funext x
    show (if x ∈ (∅ : Finset String) then 0 else
        (stepSimulation fuel (resetAct st r).1.state (resetAct st r).1.speed
            r').1.mrnaCounts x)
      = (stepSimulation fuel (resetAct st r).1.state (resetAct st r).1.speed
            r').1.mrnaCounts x
    rw [if_neg (Finset.not_mem_empty x)]

/-! ## Knockout across loop ticks (C4) -/

/-- Every loop tick re-zeros each knocked-out gene (cellforgeStore.ts line
189) and leaves the knockout set untouched. -/
theorem tick_keeps_knocked_zero (fuel : ℕ) (g : String) :
    ∀ (n : ℕ) (st : LoopStore) (r : Rng), g ∈ st.knockedOut →
      st.state.mrnaCounts g = 0 →
      (iterTicks fuel n st r).1.state.mrnaCounts g = 0 ∧
        g ∈ (iterTicks fuel n st r).1.knockedOut := by
  intro n
  induction n with
  | zero => intro st r hg hm; exact ⟨hm, hg⟩
  | succ k ih =>
    intro st r hg hm
    show (iterTicks fuel k (stepOnce fuel st r).1
        (stepOnce fuel st r).2).1.state.mrnaCounts g = 0 ∧
      g ∈ (iterTicks fuel k (stepOnce fuel st r).1 (stepOnce fuel st r).2).1.knockedOut
    apply ih
    · exact hg
    · show applyKnockouts st.knockedOut _ g = 0
      unfold applyKnockouts
      rw [if_pos hg]

/-- C4 (amended): after `knockout(g)` and no restore, the observable
`mrnaCounts[g]` is `0` after every subsequent loop tick — it never
increases, because the caller zeroes knocked-out genes after every
`stepSimulation` call (the stepper itself has no knockout guard). -/
theorem knockout_mrna_never_increases (fuel : ℕ) (g : String) (st : LoopStore)
    (r : Rng) (n : ℕ) :
    (iterTicks fuel n (knockoutAct g st) r).1.state.mrnaCounts g = 0 := by
  have hm : (knockoutAct g st).state.mrnaCounts g = 0 := by
    show (if g = g then 0 else st.state.mrnaCounts g) = 0
    rw [if_pos rfl]
  exact (tick_keeps_knocked_zero fuel g n (knockoutAct g st) r
    (Finset.mem_insert_self g st.knockedOut) hm).1

/-! ## Non-negativity invariant (C1) -/

theorem stepMet_valid (met : Met) (cm dt : ℝ) : ValidMet (stepMet met cm dt) := by
  unfold ValidMet stepMet
  dsimp only
  exact ⟨le_max_left 0 _, le_max_left 0 _, le_max_left 0 _, le_max_left 0 _,
    le_max_left 0 _, le_max_left 0 _⟩

theorem transcribe_nonneg (fuel : ℕ) (dt : ℝ) :
    ∀ (gs : List String) (m : Counts) (r : Rng), (∀ g, 0 ≤ m g) →
      ∀ g, 0 ≤ (transcribe fuel dt gs m r).1 g := by
  intro gs
  induction gs with
  | nil => intro m r hm g; exact hm g
  | cons a tl ih =>
    intro m r hm g
    show 0 ≤ (transcribe fuel dt tl
        (fun x => if x = a then m a + (poisson fuel (0.008 * dt) r).1 else m x)
        (poisson fuel (0.008 * dt) r).2).1 g
    apply ih
    intro x
    by_cases hx : x = a
    · dsimp only
      rw [if_pos hx]
      exact add_nonneg (hm a) (poisson_nonneg _ _ _)
    · dsimp only
      rw [if_neg hx]
      exact hm x

theorem translate_nonneg (fuel : ℕ) (dt : ℝ) :
    ∀ (gs : List String) (m p : Counts) (r : Rng), (∀ g, 0 ≤ p g) →
      ∀ g, 0 ≤ (translate fuel dt gs m p r).1 g := by
  intro gs
  induction gs with
  | nil => intro m p r hp g; exact hp g
  | cons a tl ih =>
    intro m p r hp g
    show 0 ≤ (translate fuel dt tl m
        (fun x => if x = a then p a + (poisson fuel (0.004 * (m a : ℝ) * dt) r).1 else p x)
        (poisson fuel (0.004 * (m a : ℝ) * dt) r).2).1 g
    apply ih
    intro x
    by_cases hx : x = a
    · dsimp only
      rw [if_pos hx]
      exact add_nonneg (hp a) (poisson_nonneg _ _ _)
    · dsimp only
      rw [if_neg hx]
      exact hp x

theorem degrade_nonneg (fuel : ℕ) (dt : ℝ) :
    ∀ (gs : List String) (m p : Counts) (r : Rng), (∀ g, 0 ≤ m g) →
      (∀ g, 0 ≤ p g) →
      (∀ g, 0 ≤ (degrade fuel dt gs m p r).1 g) ∧
        (∀ g, 0 ≤ (degrade fuel dt gs m p r).2.1 g) := by
  intro gs
  induction gs with
  | nil => intro m p r hm hp; exact ⟨hm, hp⟩
  | cons a tl ih =>
    intro m p r hm hp
    apply ih
    · intro x
      by_cases hx : x = a
      · dsimp only
        rw [if_pos hx]
        exact le_max_left 0 _
      · dsimp only
        rw [if_neg hx]
        exact hm x
    · intro x
      by_cases hx : x = a
      · dsimp only
        rw [if_pos hx]
        exact le_max_left 0 _
      · dsimp only
        rw [if_neg hx]
        exact hp x

theorem halveCounts_nonneg :
    ∀ (gs : List String) (c : Counts), (∀ g, 0 ≤ c g) →
      ∀ g, 0 ≤ halveCounts gs c g := by
  intro gs
  induction gs with
  | nil => intro c hc g; exact hc g
  | cons a tl ih =>
    intro c hc g
    apply ih
    intro x
    by_cases hx : x = a
    · dsimp only
      rw [if_pos hx]
      exact le_trans zero_le_one (le_max_left 1 _)
    · dsimp only
      rw [if_neg hx]
      exact hc x

theorem postDegradation_nonneg (fuel : ℕ) (s : SimulationState) (dt : ℝ) (r : Rng)
    (hm : ∀ g, 0 ≤ s.mrnaCounts g) (hp : ∀ g, 0 ≤ s.proteinCounts g) :
    (∀ g, 0 ≤ (postDegradation fuel s dt r).1 g) ∧
      (∀ g, 0 ≤ (postDegradation fuel s dt r).2.1 g) := by
  unfold postDegradation
  dsimp only
  exact degrade_nonneg fuel dt DEMO_GENES _ _ _
    (transcribe_nonneg fuel dt DEMO_GENES _ _ hm)
    (translate_nonneg fuel dt DEMO_GENES _ _ _ hp)

theorem growthRateOf_nonneg (s : SimulationState) (dt : ℝ) :
    0 ≤ growthRateOf s dt := by
  unfold growthRateOf
  exact mm_nonneg (by norm_num) (by norm_num)

theorem grownMass_pos (s : SimulationState) (dt : ℝ) (hmass : 0 < s.cellMass)
    (hdt : 0 < dt) : 0 < grownMass s dt := by
  unfold grownMass
  have hg : 0 ≤ growthRateOf s dt * s.cellMass * dt :=
    mul_nonneg (mul_nonneg (growthRateOf_nonneg s dt) hmass.le) hdt.le
  linarith

theorem stepSimulation_valid (fuel : ℕ) (s : SimulationState) (dt : ℝ) (r : Rng)
    (h : ValidState s) (hdt : 0 < dt) :
    ValidState (stepSimulation fuel s dt r).1 := by
  obtain ⟨_hmet, hm, hp, hmass⟩ := h
  have hpd := postDegradation_nonneg fuel s dt r hm hp
  have hgm := grownMass_pos s dt hmass hdt
  have hsm := stepMet_valid s.met s.cellMass dt
  unfold stepSimulation
  dsimp only
  split
  · exact ⟨hsm, halveCounts_nonneg DEMO_GENES _ hpd.1,
      halveCounts_nonneg DEMO_GENES _ hpd.2, by linarith⟩
  · exact ⟨⟨le_max_left 0 _, hsm.2.1, hsm.2.2.1, hsm.2.2.2.1, hsm.2.2.2.2.1,
      hsm.2.2.2.2.2⟩, hpd.1, hpd.2, hgm⟩

theorem runSteps_valid (fuel : ℕ) :
    ∀ (dts : List ℝ) (s : SimulationState) (r : Rng), (∀ dt ∈ dts, 0 < dt) →
      ValidState s → ValidState (runSteps fuel dts s r).1 := by
  intro dts
  induction dts with
  | nil => intro s r _ hs; exact hs
  | cons dt tl ih =>
    intro s r hdt hs
    show ValidState (runSteps fuel tl (stepSimulation fuel s dt r).1
        (stepSimulation fuel s dt r).2).1
    exact ih _ _ (fun d hd => hdt d (List.mem_cons_of_mem _ hd))
      (stepSimulation_valid fuel s dt r hs (hdt dt (List.mem_cons_self _ _)))

/-- C1: from any state with non-negative metabolites and counts and
positive mass, any sequence of `stepSimulation` calls with
`dt ∈ (0, 60]` keeps every metabolite concentration and every mRNA and
protein count `≥ 0` and `cellMass > 0` — after each step (every prefix of
the run). -/
theorem nonneg_invariant (fuel : ℕ) (s0 : SimulationState) (dts : List ℝ)
    (r : Rng) (hdt : ∀ dt ∈ dts, 0 < dt ∧ dt ≤ 60) (h0 : ValidState s0) :
    ∀ n : ℕ, ValidState (runSteps fuel (dts.take n) s0 r).1 := by
  intro n
  apply runSteps_valid fuel (dts.take n) s0 r ?_ h0
  intro d hd
  exact (hdt d (List.take_subset n dts hd)).1

theorem nonneg_invariant_witness :
    (∀ dt ∈ [(1 : ℝ)], 0 < dt ∧ dt ≤ 60) ∧ ValidState c1s ∧
      ValidState (runSteps 1 ([(1 : ℝ)].take 1) c1s zeroS).1 := by
  have h1 : ∀ dt ∈ [(1 : ℝ)], 0 < dt ∧ dt ≤ 60 := by
    intro dt hdt
    rw [List.mem_singleton] at hdt
    subst hdt
    norm_num
  have h2 : ValidState c1s := by
    unfold ValidState ValidMet c1s
    refine ⟨by norm_num, fun g => ?_, fun g => ?_, by norm_num⟩
    · show (0 : ℤ) ≤ 5
      norm_num
    · show (0 : ℤ) ≤ 50
      norm_num
  exact ⟨h1, h2, nonneg_invariant 1 c1s [1] zeroS h1 h2 1⟩

/-! ## Division semantics (C3) -/

/-- With `replicationProgress = 1`, mass over threshold and positive `dt`,
the division branch is taken. -/
theorem division_condition (s : SimulationState) (dt : ℝ)
    (hrepl : s.replicationProgress = 1) (hmass : 1800 < s.cellMass)
    (hdt : 0 < dt) :
    1 ≤ replStep s.replicationProgress (grownMass s dt) dt ∧
      1800 < grownMass s dt := by
  have hmono : 0 ≤ growthRateOf s dt * s.cellMass * dt :=
    mul_nonneg (mul_nonneg (growthRateOf_nonneg s dt) (by linarith)) hdt.le
  have hgm : 1800 < grownMass s dt := by
    unfold grownMass
    linarith
  refine ⟨?_, hgm⟩
  unfold replStep
  rw [if_pos hgm, hrepl]
  have hd : (1 : ℝ) ≤ 1 + dt / 2300 := by linarith
  rw [min_eq_left hd]

/-- C3 (amended): in the division tick, `cellMass'` is half of the
within-tick grown mass `cellMass * (1 + growthRate * dt)` (not half of the
pre-step mass), `replicationProgress'` is `0`, and each count pool is
`max 1 (⌊c / 2⌋)` of its post-degradation value of the same tick. -/
theorem division_halves (fuel : ℕ) (s : SimulationState) (dt : ℝ) (r : Rng)
    (hrepl : s.replicationProgress = 1) (hmass : 1800 < s.cellMass)
    (hdt : 0 < dt) :
    (stepSimulation fuel s dt r).1.cellMass = grownMass s dt / 2 ∧
      (stepSimulation fuel s dt r).1.replicationProgress = 0 ∧
      (stepSimulation fuel s dt r).1.mrnaCounts
        = halveCounts DEMO_GENES (postDegradation fuel s dt r).1 ∧
      (stepSimulation fuel s dt r).1.proteinCounts
        = halveCounts DEMO_GENES (postDegradation fuel s dt r).2.1 := by
  have hc := division_condition s dt hrepl hmass hdt
  refine ⟨?_, ?_, ?_, ?_⟩ <;>
    (unfold stepSimulation; dsimp only; rw [if_pos hc])

theorem division_halves_witness :
    c3s.replicationProgress = 1 ∧ 1800 < c3s.cellMass ∧ (0 : ℝ) < 60 ∧
      (stepSimulation 1 c3s 60 zeroS).1.cellMass = grownMass c3s 60 / 2 ∧
      (stepSimulation 1 c3s 60 zeroS).1.replicationProgress = 0 := by
  have hmass : (1800 : ℝ) < c3s.cellMass := by
    show (1800 : ℝ) < 2000
    norm_num
  have h := division_halves 1 c3s 60 zeroS rfl hmass (by norm_num)
  exact ⟨rfl, hmass, by norm_num, h.1, h.2.1⟩

/-- The post-metabolism ATP pool of the `c3s` division tick. -/
theorem c3_atp : (stepMet c3s.met c3s.cellMass 60).atp = 4.88 := by
  norm_num [stepMet, c3s, mm, max_def]

theorem c3_growthRate : growthRateOf c3s 60 = 61 / 147000 := by
  unfold growthRateOf
  rw [c3_atp]
  norm_num [mm]

theorem c3_grownMass : grownMass c3s 60 = 100440 / 49 := by
  unfold grownMass
  rw [c3_growthRate]
  show (2000 : ℝ) + 61 / 147000 * 2000 * 60 = 100440 / 49
  norm_num

/-- C3 counterexample: at a dividing state with ATP available
(`cellMass = 2000`, `atp = 5`, `dt = 60`), the post-division mass is
`50220/49 ≈ 1024.9`, which exceeds `cellMass / 2 = 1000` by more than
`1` — the halving applies to the grown mass, so `cellMass' = cellMass/2`
fails even up to floor rounding. -/
theorem division_mass_not_half :
    c3s.replicationProgress = 1 ∧ 1800 < c3s.cellMass ∧
      (stepSimulation 1 c3s 60 zeroS).1.cellMass ≠ c3s.cellMass / 2 ∧
      c3s.cellMass / 2 + 1 < (stepSimulation 1 c3s 60 zeroS).1.cellMass := by
  have hmass : (1800 : ℝ) < c3s.cellMass := by
    show (1800 : ℝ) < 2000
    norm_num
  have hc := division_condition c3s 60 rfl hmass (by norm_num)
  have hval : (stepSimulation 1 c3s 60 zeroS).1.cellMass = 100440 / 49 / 2 := by
    unfold stepSimulation
    dsimp only
    rw [if_pos hc]
    show grownMass c3s 60 / 2 = 100440 / 49 / 2
    rw [c3_grownMass]
  refine ⟨rfl, hmass, ?_, ?_⟩
  · rw [hval]
    show (100440 : ℝ) / 49 / 2 ≠ 2000 / 2
    norm_num
  · rw [hval]
    show (2000 : ℝ) / 2 + 1 < 100440 / 49 / 2
    norm_num

/-! ## The glucose/ATP scenario (C5) -/

/-- After the uptake sub-step, glucose has dropped below `10`:
`10 - (mm 10 10 0.05) / 3600 = 10 - 5/1809`. -/
theorem c5_glucose_postMet : (stepMet c5met 1000 1).glucose = 18085 / 1809 := by
  norm_num [stepMet, c5met, mm, max_def]

/-- Post-metabolism ATP: `5 + 10/201 - 1/1000`. -/
theorem c5_atp_postMet : (stepMet c5met 1000 1).atp = 1014799 / 201000 := by
  norm_num [stepMet, c5met, mm, max_def]

/-- The `c5state` tick takes the non-division branch and its final
metabolite pools are the post-metabolism pools with glucose replenished to
`10 + 13/1809`. -/
theorem c5_step_eval (fuel : ℕ) (mr pr : Counts) (r : Rng) :
    (stepSimulation fuel (c5state mr pr) 1 r).1.met.atp
        = (stepMet c5met 1000 1).atp ∧
      (stepSimulation fuel (c5state mr pr) 1 r).1.met.glucose = 18103 / 1809 := by
  have hle : growthRateOf (c5state mr pr) 1 ≤ 0.0005 := by
    unfold growthRateOf
    exact mm_le_vmax (by norm_num) (by norm_num)
  have hgm_lt : grownMass (c5state mr pr) 1 < 1800 := by
    have hge : 0 ≤ growthRateOf (c5state mr pr) 1 := growthRateOf_nonneg _ _
    unfold grownMass
    show (1000 : ℝ) + growthRateOf (c5state mr pr) 1 * 1000 * 1 < 1800
    nlinarith
  have hcond : ¬ (1 ≤ replStep (c5state mr pr).replicationProgress
      (grownMass (c5state mr pr) 1) 1 ∧ 1800 < grownMass (c5state mr pr) 1) :=
    fun hc => absurd hc.2 (not_lt.mpr hgm_lt.le)
  constructor
  · unfold stepSimulation
    dsimp only
    rw [if_neg hcond]
    rfl
  · unfold stepSimulation
    dsimp only
    rw [if_neg hcond]
    show max 0 ((stepMet c5met 1000 1).glucose + mm 20 0.01 0.1 * 1) = 18103 / 1809
    rw [c5_glucose_postMet]
    norm_num [mm, max_def]

/-- C5 (amended): at `glucose = 10`, `atp = 5`, a step with `dt = 1`
performs uptake (pre-replenishment glucose `< 10`) and leaves
`atp' ≥ 5`; but the final glucose is `10 + 13/1809 > 10`, because the
media replenishment of the same tick exceeds the consumed amount. -/
theorem scenario_glucose_atp (fuel : ℕ) (mr pr : Counts) (r : Rng) :
    (stepMet c5met 1000 1).glucose < 10 ∧
      5 ≤ (stepSimulation fuel (c5state mr pr) 1 r).1.met.atp ∧
      10 < (stepSimulation fuel (c5state mr pr) 1 r).1.met.glucose := by
  have h := c5_step_eval fuel mr pr r
  refine ⟨?_, ?_, ?_⟩
  · rw [c5_glucose_postMet]
    norm_num
  · rw [h.1, c5_atp_postMet]
    norm_num
  · rw [h.2]
    norm_num

/-- C5 counterexample: the claimed `glucose' < 10` fails — the final
glucose of the scenario tick is `10 + 13/1809 > 10` (replenishment
outweighs uptake at the stated constants). -/
theorem scenario_glucose_not_below_10 :
    ¬ ((stepSimulation 1 (c5state zCounts zCounts) 1 zeroS).1.met.glucose < 10) := by
  rw [(c5_step_eval 1 zCounts zCounts zeroS).2]
  norm_num

/-! ## Transcription has no knockout guard (C4 counterexample) -/

theorem exp_neg_008_lt : Real.exp (-(0.008 : ℝ)) < 999 / 1000 := by
  have h1 : (0.008 : ℝ) + 1 ≤ Real.exp 0.008 := Real.add_one_le_exp 0.008
  have h2 : (1000 / 999 : ℝ) < Real.exp 0.008 := by
    have : (1000 / 999 : ℝ) < 0.008 + 1 := by norm_num
    linarith
  rw [Real.exp_neg]
  have hpos : (0 : ℝ) < 1000 / 999 := by norm_num
  calc (Real.exp 0.008)⁻¹ < (1000 / 999)⁻¹ := by
        exact inv_strictAnti₀ hpos h2
    _ = 999 / 1000 := by norm_num

theorem shift_ceRng : shift ceRng = zeroS := by
  funext i
  simp [shift, ceRng, zeroS]

/-- On the `0.999`-then-zeros stream, the small-lambda sampler at
`lam = 0.008` runs its loop twice (the first product `0.999` exceeds
`exp (-0.008) ≈ 0.992`, the second is `0`) and returns `1`. -/
theorem poisson_ceRng : poisson 1 (0.008 : ℝ) ceRng = (1, zeroS) := by
  unfold poisson
  rw [if_neg (by norm_num), if_neg (by norm_num)]
  have hc0 : ceRng 0 = 999 / 1000 := rfl
  have hne : ¬ ((1 : ℝ) * ceRng 0 ≤ Real.exp (-(0.008 : ℝ))) := by
    rw [hc0, one_mul]
    exact not_le.mpr exp_neg_008_lt
  have hloop : poissonLoop (Real.exp (-(0.008 : ℝ))) 1 1 0 ceRng = (2, zeroS) := by
    unfold poissonLoop
    rw [if_neg hne]
    unfold poissonLoop
    rw [shift_ceRng, shift_zeroS]
  rw [hloop]
  norm_num

theorem transcribe_zeroS (fuel : ℕ) {dt : ℝ} (h : 0.008 * dt ≤ 30) :
    ∀ (gs : List String) (m : Counts), transcribe fuel dt gs m zeroS = (m, zeroS) := by
  intro gs
  induction gs with
  | nil => intro m; rfl
  | cons a tl ih =>
    intro m
    show transcribe fuel dt tl
        (fun x => if x = a then m a + (poisson fuel (0.008 * dt) zeroS).1 else m x)
        (poisson fuel (0.008 * dt) zeroS).2 = (m, zeroS)
    rw [poisson_zeroS fuel h]
    have hmap : (fun x => if x = a then m a + ((0 : ℤ), zeroS).1 else m x) = m := by
      funext x
      by_cases hx : x = a
      · rw [if_pos hx, hx]
        exact add_zero (m a)
      · rw [if_neg hx]
    rw [hmap]
    exact ih m

theorem translate_zeroS (fuel : ℕ) {dt : ℝ} :
    ∀ (gs : List String) (m p : Counts),
      (∀ g ∈ gs, 0.004 * (m g : ℝ) * dt ≤ 30) →
      translate fuel dt gs m p zeroS = (p, zeroS) := by
  intro gs
  induction gs with
  | nil => intro m p _; rfl
  | cons a tl ih =>
    intro m p h
    show translate fuel dt tl m
        (fun x => if x = a then p a + (poisson fuel (0.004 * (m a : ℝ) * dt) zeroS).1 else p x)
        (poisson fuel (0.004 * (m a : ℝ) * dt) zeroS).2 = (p, zeroS)
    rw [poisson_zeroS fuel (h a (List.mem_cons_self a tl))]
    have hmap : (fun x => if x = a then p a + ((0 : ℤ), zeroS).1 else p x) = p := by
      funext x
      by_cases hx : x = a
      · rw [if_pos hx, hx]
        exact add_zero (p a)
      · rw [if_neg hx]
    rw [hmap]
    exact ih m p (fun g hg => h g (List.mem_cons_of_mem a hg))

theorem degrade_zeroS (fuel : ℕ) {dt : ℝ} :
    ∀ (gs : List String) (m p : Counts),
      (∀ g ∈ gs, (m g : ℝ) * 0.0023 * dt ≤ 30) →
      (∀ g ∈ gs, (p g : ℝ) * 0.000019 * dt ≤ 30) →
      (∀ g, 0 ≤ m g) → (∀ g, 0 ≤ p g) →
      degrade fuel dt gs m p zeroS = (m, p, zeroS) := by
  intro gs
  induction gs with
  | nil => intro m p _ _ _ _; rfl
  | cons a tl ih =>
    intro m p hm30 hp30 hm hp
    show degrade fuel dt tl
        (fun x => if x = a then max 0 (m a - (poisson fuel ((m a : ℝ) * 0.0023 * dt) zeroS).1) else m x)
        (fun x => if x = a then
            max 0 (p a - (poisson fuel ((p a : ℝ) * 0.000019 * dt)
              (poisson fuel ((m a : ℝ) * 0.0023 * dt) zeroS).2).1)
          else p x)
        (poisson fuel ((p a : ℝ) * 0.000019 * dt)
          (poisson fuel ((m a : ℝ) * 0.0023 * dt) zeroS).2).2 = (m, p, zeroS)
    rw [poisson_zeroS fuel (hm30 a (List.mem_cons_self a tl))]
    rw [poisson_zeroS fuel (hp30 a (List.mem_cons_self a tl))]
    have hmmap : (fun x => if x = a then max 0 (m a - ((0 : ℤ), zeroS).1) else m x) = m := by
      funext x
      by_cases hx : x = a
      · rw [if_pos hx, hx]
        show max 0 (m a - 0) = m a
        rw [sub_zero]
        exact max_eq_right (hm a)
      · rw [if_neg hx]
    have hpmap : (fun x => if x = a then max 0 (p a - ((0 : ℤ), zeroS).1) else p x) = p := by
      funext x
      by_cases hx : x = a
      · rw [if_pos hx, hx]
        show max 0 (p a - 0) = p a
        rw [sub_zero]
        exact max_eq_right (hp a)
      · rw [if_neg hx]
    rw [hmmap, hpmap]
    exact ih m p (fun g hg => hm30 g (List.mem_cons_of_mem a hg))
      (fun g hg => hp30 g (List.mem_cons_of_mem a hg)) hm hp

theorem ceM1_nonneg : ∀ g, 0 ≤ ceM1 g := by
  intro g
  unfold ceM1
  by_cases hg : g = "dnaA"
  · rw [if_pos hg]
    norm_num
  · rw [if_neg hg]

theorem zCounts_nonneg : ∀ g, 0 ≤ zCounts g := fun _ => le_refl 0

/-- First transcription iteration of the counterexample run: `dnaA` draws
a Poisson `1` from the `0.999` draw; the remaining genes draw `0` from
the zero stream. -/
theorem transcribe_ce : transcribe 1 1 DEMO_GENES zCounts ceRng = (ceM1, zeroS) := by
  have h1 : transcribe 1 1 DEMO_GENES zCounts ceRng
      = transcribe 1 1 DTAIL
          (fun x => if x = "dnaA" then zCounts "dnaA" + (poisson 1 (0.008 * 1) ceRng).1 else zCounts x)
          (poisson 1 (0.008 * 1) ceRng).2 := rfl
  rw [h1, mul_one, poisson_ceRng]
  have hmap : (fun x => if x = "dnaA" then zCounts "dnaA" + ((1 : ℤ), zeroS).1 else zCounts x)
      = ceM1 := by
    funext x
    by_cases hx : x = "dnaA"
    · rw [if_pos hx]
      show (0 : ℤ) + 1 = ceM1 x
      rw [hx]
      rfl
    · rw [if_neg hx]
      show (0 : ℤ) = ceM1 x
      unfold ceM1
      rw [if_neg hx]
  rw [hmap]
  exact transcribe_zeroS 1 (by norm_num) DTAIL ceM1

theorem translate_ce : translate 1 1 DEMO_GENES ceM1 zCounts zeroS = (zCounts, zeroS) := by
  apply translate_zeroS
  intro g _
  by_cases hg : g = "dnaA"
  · rw [hg]
    show 0.004 * ((1 : ℤ) : ℝ) * 1 ≤ 30
    norm_num
  · show 0.004 * ((ceM1 g : ℤ) : ℝ) * 1 ≤ 30
    unfold ceM1
    rw [if_neg hg]
    norm_num

theorem degrade_ce : degrade 1 1 DEMO_GENES ceM1 zCounts zeroS = (ceM1, zCounts, zeroS) := by
  apply degrade_zeroS
  · intro g _
    by_cases hg : g = "dnaA"
    · rw [hg]
      show ((1 : ℤ) : ℝ) * 0.0023 * 1 ≤ 30
      norm_num
    · show ((ceM1 g : ℤ) : ℝ) * 0.0023 * 1 ≤ 30
      unfold ceM1
      rw [if_neg hg]
      norm_num
  · intro g _
    show ((0 : ℤ) : ℝ) * 0.000019 * 1 ≤ 30
    norm_num
  · exact ceM1_nonneg
  · exact zCounts_nonneg

theorem postDegradation_ce :
    postDegradation 1 zState 1 ceRng = (ceM1, zCounts, zeroS) := by
  unfold postDegradation
  dsimp only
  show degrade 1 1 DEMO_GENES (transcribe 1 1 DEMO_GENES zCounts ceRng).1
      (translate 1 1 DEMO_GENES (transcribe 1 1 DEMO_GENES zCounts ceRng).1 zCounts
        (transcribe 1 1 DEMO_GENES zCounts ceRng).2).1
      (translate 1 1 DEMO_GENES (transcribe 1 1 DEMO_GENES zCounts ceRng).1 zCounts
        (transcribe 1 1 DEMO_GENES zCounts ceRng).2).2
      = (ceM1, zCounts, zeroS)
  rw [transcribe_ce]
  dsimp only
  rw [translate_ce]
  dsimp only
  exact degrade_ce

/-- C4 counterexample: `stepSimulation` contains no knockout guard.
With `dnaA` knocked out (its mRNA zeroed and the gene in the store's
knockout set), a step whose first draw drives the transcription sampler
to `1` gives `dnaA` one fresh transcript inside the step — the claim that
knocked-out genes receive zero new mRNA at the transcription step is
false; only the caller-side zeroing after the step restores `0`. -/
theorem knockout_transcribes_inside_step :
    "dnaA" ∈ kst.knockedOut ∧ kst.state.mrnaCounts "dnaA" = 0 ∧
      (stepSimulation 1 kst.state 1 ceRng).1.mrnaCounts "dnaA" = 1 := by
  refine ⟨Finset.mem_singleton.mpr rfl, rfl, ?_⟩
  show (stepSimulation 1 zState 1 ceRng).1.mrnaCounts "dnaA" = 1
  have hle : growthRateOf zState 1 ≤ 0.0005 := by
    unfold growthRateOf
    exact mm_le_vmax (by norm_num) (by norm_num)
  have hgm_lt : grownMass zState 1 < 1800 := by
    have hge : 0 ≤ growthRateOf zState 1 := growthRateOf_nonneg _ _
    unfold grownMass
    show (1000 : ℝ) + growthRateOf zState 1 * 1000 * 1 < 1800
    nlinarith
  have hcond : ¬ (1 ≤ replStep zState.replicationProgress
      (grownMass zState 1) 1 ∧ 1800 < grownMass zState 1) :=
    fun hc => absurd hc.2 (not_lt.mpr hgm_lt.le)
  unfold stepSimulation
  dsimp only
  rw [if_neg hcond]
  show (postDegradation 1 zState 1 ceRng).1 "dnaA" = 1
  rw [postDegradation_ce]
  rfl

end OpenLab
